import Mathlib

/-!
A shallow embedding of the group-task controllers in
`website/server/controllers/api-v3/tasks/groups.js`: task linking, the
approval workflow and the notification bookkeeping for tasks that belong to a
group.  The handlers are embedded as pure functions from the acting user, the
request parameters and the resolved contents of the external stores to either
a typed error or the updated entities.  External collaborators (the stores,
the localization formatter and the task-manager `moveTask` helper) are not
part of this source tree; they are modelled from the specification and marked
as such in their doc comments.
-/

set_option autoImplicit false

namespace HabiticaGroupTasks

/-- Score direction carried on notifications (`'up'` or `'down'`). -/
inductive Direction where
  | up
  | down
  deriving DecidableEq, Repr

/-- Modelled from the spec: the localization collaborator
`translate(key, params, locale?)` (`res.t` in the source) is an opaque
formatter; its output is modelled freely as the record of its arguments, so
two rendered messages are equal exactly when key, parameters and locale all
agree.  `locale = none` models `res.t` called without an explicit language
argument, which renders in the acting request's session locale. -/
structure LMsg where
  key : String
  params : List (String × String)
  locale : Option String
  deriving DecidableEq, Repr

/-- Modelled from the spec: one `res.t(key, params, language?)` rendering. -/
def res_t (key : String) (params : List (String × String)) (locale : Option String) : LMsg :=
  ⟨key, params, locale⟩

/-- The `task.group.approval` subdocument.  Timestamps are abstract `Nat`
instants; a missing date is `none`. -/
structure ApprovalState where
  requested : Bool := false
  requestedDate : Option Nat := none
  approved : Bool := false
  dateApproved : Option Nat := none
  approvingUser : Option String := none
  deriving DecidableEq, Repr

/-- The `task.group` subdocument: a task's group association.  `id` is the
owning group (absent on a task that does not belong to a group); `taskId`
points from a per-user linked copy back to the canonical group task. -/
structure TaskGroup where
  id : Option String := none
  taskId : Option String := none
  approval : ApprovalState := {}
  deriving DecidableEq, Repr

/-- Task types; `group.tasksOrder` holds one ordering bucket per type. -/
inductive TaskType where
  | habit
  | daily
  | todo
  | reward
  deriving DecidableEq, Repr

/-- A task document.  `id` embeds `_id`; `userId` is the owner of a linked
per-user copy (absent on a canonical group task). -/
structure Task where
  id : String
  type : TaskType
  text : String := ""
  completed : Bool := false
  userId : Option String := none
  group : TaskGroup := {}
  deriving DecidableEq, Repr

/-- A notification payload.  JavaScript payloads are plain objects whose
fields vary with the notification kind; a field that a given kind does not
carry reads back as `undefined`, modelled by a `none` default.  `taskInfo`,
`groupInfo` and `managerInfo` are the id/name (or id/text) pairs nested in the
needs-work payload. -/
structure NotifData where
  taskId : Option String := none
  message : Option LMsg := none
  groupId : Option String := none
  scoreTask : Option Task := none
  direction : Option Direction := none
  taskInfo : Option (String × String) := none
  groupInfo : Option (String × String) := none
  managerInfo : Option (String × String) := none
  deriving DecidableEq, Repr

/-- A notification document: `type` is the kind tag, `data` the payload
(possibly missing), and `direction` the top-level field present on pending
`GROUP_TASK_APPROVAL` notifications queued by the external scoring code. -/
structure Notif where
  type : String
  data : Option NotifData := none
  direction : Option Direction := none
  deriving DecidableEq, Repr

/-- One entry of a user's notification list.  `none` models a `null` or
`undefined` array entry, which the controller's scans must tolerate. -/
abbrev NotifEntry := Option Notif

/-- A user document.  `name` embeds `profile.name` and `language` embeds
`preferences.language`. -/
structure User where
  id : String
  name : String := ""
  language : String := ""
  notifications : List NotifEntry := []
  deriving DecidableEq, Repr

/-- The `group.tasksOrder` object: one ordered id list per task type (the
source indexes it by the type name with an `s` appended). -/
structure TasksOrder where
  habits : List String := []
  dailys : List String := []
  todos : List String := []
  rewards : List String := []
  deriving DecidableEq, Repr

/-- Bucket selection: the source's lookup of the tasksOrder bucket keyed by
the task's type. -/
def TasksOrder.get (o : TasksOrder) : TaskType → List String
  | .habit => o.habits
  | .daily => o.dailys
  | .todo => o.todos
  | .reward => o.rewards

/-- Bucket replacement: the in-place mutation of one tasksOrder bucket. -/
def TasksOrder.set (o : TasksOrder) : TaskType → List String → TasksOrder
  | .habit, l => {o with habits := l}
  | .daily, l => {o with dailys := l}
  | .todo, l => {o with todos := l}
  | .reward, l => {o with rewards := l}

/-- A group document.  `managers` is the managers object, a finite map from
user id to a boolean flag, modelled as an association list; the source reads
it with `Boolean(group.managers[id])`, i.e. the first binding for the id, and
`false` when the id is absent. -/
structure Group where
  id : String
  leader : String
  managers : List (String × Bool) := []
  name : String := ""
  tasksOrder : TasksOrder := {}
  deriving DecidableEq, Repr

/-- Message keys of the errors thrown by these controllers. -/
inductive ErrKey where
  | taskNotFound
  | groupNotFound
  | onlyGroupLeaderCanEditTasks
  | canOnlyApproveTaskOnce
  | taskApprovalWasNotRequested
  | onlyGroupTasksCanBeAssigned
  | cantMoveCompletedTodo
  deriving DecidableEq, Repr

/-- Typed controller errors.  The source throws `NotFound`, `NotAuthorized`
or `BadRequest` with a message key; `jsTypeError` models a raw JavaScript
`TypeError` (a property access on `null`/`undefined`), which escapes as an
uncaught exception rather than as one of the typed API errors. -/
inductive Err where
  | notFound (k : ErrKey)
  | notAuthorized (k : ErrKey)
  | badRequest (k : ErrKey)
  | jsTypeError
  deriving DecidableEq, Repr

/-- Modelled from the spec: the classification of section 7 of the spec,
grouping the errors it calls `InvalidStateTransition` (approval attempted
twice, needs-work without a pending request, repositioning a completed todo). -/
def isInvalidStateTransition : Err → Bool
  | .notAuthorized .canOnlyApproveTaskOnce => true
  | .notAuthorized .taskApprovalWasNotRequested => true
  | .badRequest .cantMoveCompletedTodo => true
  | _ => false

/-- Embeds `canNotEditTasks(group, user, assignedUserId)` (groups.js 19-24):
the actor can NOT edit exactly when they are not the group's leader, are not
a manager with a truthy flag, and are not assigning to themselves.
`assignedUserId = none` models the call sites that omit the third argument; a
supplied id comes from a route parameter validated as a non-empty UUID, hence
is always truthy. -/
def canNotEditTasks (group : Group) (user : User) (assignedUserId : Option String) : Bool :=
  let isNotGroupLeader := decide (group.leader ≠ user.id)
  let isManager := (group.managers.lookup user.id).getD false
  let userIsAssigningToSelf :=
    match assignedUserId with
    | none => false
    | some a => decide (user.id = a)
  isNotGroupLeader && !isManager && !userIsAssigningToSelf

/-- The notification-scan predicate shared by approve and needs-work
(groups.js 320, 331 and 420): an entry matches when it is non-null, carries a
`data` object whose `taskId` equals the linked task's id, and has type
`GROUP_TASK_APPROVAL`. -/
def isApprovalNotifFor (taskId : String) : NotifEntry → Bool
  | none => false
  | some n =>
    match n.data with
    | none => false
    | some d => decide (d.taskId = some taskId) && decide (n.type = "GROUP_TASK_APPROVAL")

/-- Embeds the `findIndex` + `splice(index, 1)` pair of approve and needs-work
(groups.js 330-337 and 419-426): remove the first matching entry, if any.
The boolean records whether the list changed (`notificationIndex !== -1`),
which is what queues the manager's save. -/
def removeFirstApproval (taskId : String) : List NotifEntry → List NotifEntry × Bool
  | [] => ([], false)
  | e :: rest =>
    if isApprovalNotifFor taskId e then (rest, true)
    else
      let r := removeFirstApproval taskId rest
      (e :: r.1, r.2)

/-- One manager's notification cleanup during approve / needs-work: the user
with the first matching pending-approval entry removed, plus the changed flag. -/
def clearApprovalNotif (taskId : String) (u : User) : User × Bool :=
  let r := removeFirstApproval taskId u.notifications
  ({u with notifications := r.1}, r.2)

/-- Embeds the direction lookup of approve (groups.js 317-325): scan the
notification list of the FIRST fetched manager document for the first matching
pending-approval entry; when one is found (a matching entry is necessarily
truthy) read its top-level `direction` field, otherwise keep the initial
`'up'`.  The result is `none` exactly when the found notification itself
carries no `direction` field, which the source forwards as `undefined`. -/
def approvalDirection (taskId : String) : List NotifEntry → Option Direction
  | [] => some .up
  | e :: rest =>
    if isApprovalNotifFor taskId e then
      match e with
      | some n => n.direction
      | none => some .up
    else approvalDirection taskId rest

/-- Modelled from the spec: the user store `findUserById` (`User.findById`). -/
def findUserById (users : List User) (id : String) : Option User :=
  users.find? fun u => decide (u.id = id)

/-- Modelled from the spec: the group store `getGroup`, resolving a group by
id; absent when the id itself is absent or unknown. -/
def getGroup (groups : List Group) (groupId : Option String) : Option Group :=
  groupId.bind fun gid => groups.find? fun g => decide (g.id = gid)

/-- Modelled from the spec: the task store query used by approve and
needs-work, resolving the linked copy of canonical task `taskId` owned by
`userId`. -/
def findLinkedTask (tasks : List Task) (taskId userId : String) : Option Task :=
  tasks.find? fun t => decide (t.group.taskId = some taskId) && decide (t.userId = some userId)

/-- Modelled from the spec: the user store `findUsers` (`User.find` over the
manager id list).  Each existing user document is returned once, duplicate
ids resolving to a single document; the store's unspecified result order is
fixed to the order of first occurrence in the id list. -/
def fetchUsers (users : List User) (ids : List String) : List User :=
  ids.dedup.filterMap (findUserById users)

/-- Modelled from the spec: `User#addNotification(type, data)` of the external
user model appends one notification to the end of the user's list. -/
def addNotification (u : User) (ty : String) (d : NotifData) : User :=
  {u with notifications := u.notifications ++ [some {type := ty, data := some d}]}

/-- Insertion at an index, clamped at the end of the list: inserting beyond
the current length appends (JavaScript `splice(to, 0, id)` semantics assumed
by the spec's PositionIndex). -/
def insertClamped : Nat → String → List String → List String
  | _, a, [] => [a]
  | 0, a, l => a :: l
  | n + 1, a, x :: xs => x :: insertClamped n a xs

/-- Modelled from the spec: `moveTask(order, taskId, to)` of the external task
manager (PositionIndex): remove `taskId` from its current position if present,
then append it when `to = -1`, otherwise insert it at index `to` (an index
beyond the length appends at the end). -/
def moveTask (order : List String) (taskId : String) (toPos : Int) : List String :=
  let removed := order.erase taskId
  if toPos = -1 then removed ++ [taskId]
  else insertClamped toPos.toNat taskId removed

/-- Embeds the approval mutation of approve (groups.js 308-310): set the date,
the approving user and the approved flag on the linked task. -/
def approveUpdate (now : Nat) (approverId : String) (t : Task) : Task :=
  {t with group := {t.group with approval :=
    {t.group.approval with
      dateApproved := some now, approvingUser := some approverId, approved := true}}}

/-- Embeds the approval mutation of needs-work (groups.js 429-430): clear the
requested flag and the requested date on the linked task. -/
def needsWorkUpdate (t : Task) : Task :=
  {t with group := {t.group with approval :=
    {t.group.approval with requested := false, requestedDate := none}}}

/-- Successful result of the approve handler: the entities the handler holds
in memory and persists — the mutated linked task, the assignee with the two
new notifications, every fetched leader/manager document after notification
cleanup, and the sub-list of those whose notification list changed (the only
ones whose save is queued).  A returned error produces no updated entities:
the handler throws before any save is issued for the failing call. -/
structure ApproveOk where
  task : Task
  assignedUser : User
  managers : List User
  savedManagers : List User
  deriving DecidableEq, Repr

/-- Embeds the body of `api.approveTask.handler` (groups.js 276-358) after
request validation, as a function of the acting user, the two route
parameters, the resolved store contents and the current instant `now`. -/
def approveTask (now : Nat) (user : User) (taskId assignedUserId : String)
    (tasks : List Task) (groups : List Group) (users : List User) : Except Err ApproveOk :=
  let assignedUser? := findUserById users assignedUserId
  match findLinkedTask tasks taskId assignedUserId with
  | none => .error (.notFound .taskNotFound)
  | some task0 =>
    match getGroup groups task0.group.id with
    | none => .error (.notFound .groupNotFound)
    | some group =>
      if canNotEditTasks group user none then
        .error (.notAuthorized .onlyGroupLeaderCanEditTasks)
      else if task0.group.approval.approved then
        .error (.notAuthorized .canOnlyApproveTaskOnce)
      else
        let task := approveUpdate now user.id task0
        let managerIds := group.managers.map Prod.fst ++ [group.leader]
        let managers := fetchUsers users managerIds
        match managers with
        | [] => .error .jsTypeError
        | m0 :: _ =>
          let direction := approvalDirection task.id m0.notifications
          let cleared := managers.map (clearApprovalNotif task.id)
          match assignedUser? with
          | none => .error .jsTypeError
          | some au0 =>
            let au1 := addNotification au0 "GROUP_TASK_APPROVED"
              {message := some (res_t "yourTaskHasBeenApproved" [("taskText", task.text)] none),
               groupId := some group.id}
            let au2 := addNotification au1 "SCORED_TASK"
              {message := some (res_t "yourTaskHasBeenApproved" [("taskText", task.text)] none),
               scoreTask := some task,
               direction := direction}
            .ok {task := task, assignedUser := au2,
                 managers := cleared.map Prod.fst,
                 savedManagers := (cleared.filter Prod.snd).map Prod.fst}

/-- Successful result of the needs-work handler, mirroring `ApproveOk`. -/
structure NeedsWorkOk where
  task : Task
  assignedUser : User
  managers : List User
  savedManagers : List User
  deriving DecidableEq, Repr

/-- Embeds the body of `api.taskNeedsWork.handler` (groups.js 372-457) after
request validation. -/
def taskNeedsWork (user : User) (taskId assignedUserId : String)
    (tasks : List Task) (groups : List Group) (users : List User) : Except Err NeedsWorkOk :=
  let assignedUser? := findUserById users assignedUserId
  match findLinkedTask tasks taskId assignedUserId with
  | none => .error (.notFound .taskNotFound)
  | some task0 =>
    match getGroup groups task0.group.id with
    | none => .error (.notFound .groupNotFound)
    | some group =>
      if canNotEditTasks group user none then
        .error (.notAuthorized .onlyGroupLeaderCanEditTasks)
      else if task0.group.approval.approved then
        .error (.notAuthorized .canOnlyApproveTaskOnce)
      else if !task0.group.approval.requested then
        .error (.notAuthorized .taskApprovalWasNotRequested)
      else
        let managerIds := group.managers.map Prod.fst ++ [group.leader]
        let managers := fetchUsers users managerIds
        let cleared := managers.map (clearApprovalNotif task0.id)
        let task := needsWorkUpdate task0
        match assignedUser? with
        | none => .error .jsTypeError
        | some au0 =>
          let message := res_t "taskNeedsWork"
            [("taskText", task.text), ("managerName", user.name)] (some au0.language)
          let au1 := addNotification au0 "GROUP_TASK_NEEDS_WORK"
            {message := some message,
             taskInfo := some (task.id, task.text),
             groupInfo := some (group.id, group.name),
             managerInfo := some (user.id, user.name)}
          .ok {task := task, assignedUser := au1,
               managers := cleared.map Prod.fst,
               savedManagers := (cleared.filter Prod.snd).map Prod.fst}

/-- Successful result of the assign handler: the source responds with the
resolved task itself; the self-claim chat message, when one was posted, is the
rendered announcement.  The linked-copy synchronization (`group.syncTask`) and
the group save act on the external store and are outside the returned value. -/
structure AssignOk where
  task : Task
  chat : Option LMsg
  deriving DecidableEq, Repr

/-- Embeds the body of `api.assignTask.handler` (groups.js 166-213) after
request validation.  `Task.findByIdOrAlias` is modelled as resolution by id
(alias resolution belongs to the external task model). -/
def assignTask (user : User) (taskId assignedUserId : String)
    (tasks : List Task) (groups : List Group) (users : List User) : Except Err AssignOk :=
  let _assignedUser? := findUserById users assignedUserId
  match tasks.find? fun t => decide (t.id = taskId) with
  | none => .error (.notFound .taskNotFound)
  | some task =>
    match task.group.id with
    | none => .error (.notAuthorized .onlyGroupTasksCanBeAssigned)
    | some gid =>
      match getGroup groups (some gid) with
      | none => .error (.notFound .groupNotFound)
      | some group =>
        if canNotEditTasks group user (some assignedUserId) then
          .error (.notAuthorized .onlyGroupLeaderCanEditTasks)
        else
          let chat :=
            if user.id = assignedUserId then
              some (res_t "userIsClamingTask"
                [("username", user.name), ("task", task.text)] none)
            else none
          .ok {task := task, chat := chat}

/-- Embeds the body of `api.groupMoveTask.handler` (groups.js 115-153) after
request validation: on success the handler responds with the reordered bucket
and persists the group carrying it. -/
def groupMoveTask (user : User) (taskId : String) (toPos : Int)
    (tasks : List Task) (groups : List Group) : Except Err (Group × List String) :=
  match tasks.find? fun t => decide (t.id = taskId) with
  | none => .error (.notFound .taskNotFound)
  | some task =>
    if task.type = TaskType.todo ∧ task.completed then
      .error (.badRequest .cantMoveCompletedTodo)
    else
      match getGroup groups task.group.id with
      | none => .error (.notFound .groupNotFound)
      | some group =>
        if group.leader ≠ user.id then
          .error (.notAuthorized .onlyGroupLeaderCanEditTasks)
        else
          let order := group.tasksOrder.get task.type
          let newOrder := moveTask order task.id toPos
          .ok ({group with tasksOrder := group.tasksOrder.set task.type newOrder}, newOrder)

/-- A notification-list entry that is null/undefined or carries no `data`
payload object — the malformed shapes the controller's scans must tolerate. -/
def isMalformedEntry : NotifEntry → Bool
  | none => true
  | some n => n.data.isNone

/-- The direction carried by the payload of the last notification delivered
to the assignee of a successful approve call — that last notification is the
`SCORED_TASK` one, so this reads back the forwarded direction. -/
def scoredDirection : Except Err ApproveOk → Option Direction
  | .ok r =>
    match r.assignedUser.notifications.getLast? with
    | some (some n) =>
      match n.data with
      | some d => d.direction
      | none => none
    | _ => none
  | .error _ => none

/-- Concrete scenario data used by the witnesses and counterexamples below:
a group `G` with leader `L` and manager `M`, a task assigned to user `A` with
a pending approval request, and `M` holding the queued pending-approval
notification with direction `'down'`. -/
def wLeader : User := {id := "L", name := "Lea", language := "en"}

/-- The pending-approval notification queued for the linked task `lt1`. -/
def wPendingDown : Notif :=
  {type := "GROUP_TASK_APPROVAL", data := some {taskId := some "lt1"},
   direction := some Direction.down}

/-- The manager of group `G`, holding the pending-approval notification. -/
def wManager : User :=
  {id := "M", name := "Man", language := "de", notifications := [some wPendingDown]}

/-- The assignee, whose preferred language differs from the leader's. -/
def wAssignee : User := {id := "A", name := "Ann", language := "fr"}

/-- The group with leader `L` and manager `M`. -/
def wGroup : Group := {id := "G", leader := "L", managers := [("M", true)], name := "Guild"}

/-- The linked copy of canonical task `ct1`, assigned to `A`, approval
requested and not yet approved. -/
def wTask : Task :=
  {id := "lt1", type := TaskType.todo, text := "write the report", userId := some "A",
   group := {id := some "G", taskId := some "ct1", approval := {requested := true}}}

/-- The user store of the standard scenario. -/
def wUsers : List User := [wLeader, wManager, wAssignee]

/-- The linked task as stored after a first successful approve at instant 5. -/
def wTaskApproved : Task := approveUpdate 5 "L" wTask

/-- A linked task that is already approved while its request flag is down. -/
def wTaskApprovedNotRequested : Task :=
  {wTask with group := {wTask.group with approval := {requested := false, approved := true}}}

/-- A task with no group association (its `group.id` is absent). -/
def wSoloTask : Task := {id := "x1", type := TaskType.habit, text := "inbox zero"}

/-- The group with a non-trivial todos ordering bucket, for the move claim. -/
def wMoveGroup : Group := {wGroup with tasksOrder := {todos := ["lt1", "z"]}}

/-- A user listed in a managers mapping with flag `false`, for the
authorization claim. -/
def wFalseFlagUser : User := {id := "U5", name := "Uma"}

/-- A group whose managers mapping lists `U5` with flag `false`. -/
def wFalseFlagGroup : Group :=
  {id := "G5", leader := "L5", managers := [("U5", false)], name := "Falsy"}

/-- Direction-lookup counterexample scenario: the first fetched user of the
leader-plus-managers set (`M2`, the manager) holds no pending-approval
notification, while the second (`L2`, the leader) holds one with direction
`'down'`. -/
def cPendingDown : Notif :=
  {type := "GROUP_TASK_APPROVAL", data := some {taskId := some "lt3"},
   direction := some Direction.down}

/-- The leader of the counterexample scenario, holding the down notification. -/
def cLeaderDown : User :=
  {id := "L2", name := "Lex", language := "en", notifications := [some cPendingDown]}

/-- The manager of the counterexample scenario, holding no notifications. -/
def cManagerEmpty : User := {id := "M2", name := "Mia"}

/-- The assignee of the counterexample scenario. -/
def cAssignee : User := {id := "A2", name := "Abe", language := "es"}

/-- The counterexample group: manager `M2` is fetched before leader `L2`. -/
def cGroup : Group := {id := "G3", leader := "L2", managers := [("M2", true)], name := "Band"}

/-- The counterexample linked task, approval requested. -/
def cTask : Task :=
  {id := "lt3", type := TaskType.daily, text := "drill", userId := some "A2",
   group := {id := some "G3", taskId := some "ct3", approval := {requested := true}}}

/-- The counterexample user store. -/
def cUsers : List User := [cLeaderDown, cManagerEmpty, cAssignee]

/-- A matching entry of the approval scan is well-formed: non-null and with a
payload object. -/
theorem isMalformedEntry_eq_false_of_matches (taskId : String) (e : NotifEntry)
    (h : isApprovalNotifFor taskId e = true) : isMalformedEntry e = false := by
  cases e with
  | none => simp [isApprovalNotifFor] at h
  | some n =>
    cases hd : n.data with
    | none => rw [isApprovalNotifFor] at h; simp [hd] at h
    | some d => simp [isMalformedEntry, hd]

/-- A matching entry carries a payload whose `taskId` is the scanned id and
has the pending-approval type tag. -/
theorem matches_iff (taskId : String) (n : Notif) :
    isApprovalNotifFor taskId (some n) = true ↔
      ∃ d, n.data = some d ∧ d.taskId = some taskId ∧ n.type = "GROUP_TASK_APPROVAL" := by
  rw [isApprovalNotifFor]
  cases hd : n.data with
  | none => simp
  | some d => simp [hd]

/-- When no entry matches, the removal scan leaves the list untouched and
reports no change. -/
theorem removeFirstApproval_of_forall_not (taskId : String) (l : List NotifEntry)
    (h : ∀ e ∈ l, isApprovalNotifFor taskId e = false) :
    removeFirstApproval taskId l = (l, false) := by
  induction l with
  | nil => rfl
  | cons e rest ih =>
    have he : isApprovalNotifFor taskId e = false := h e (List.mem_cons_self e rest)
    rw [removeFirstApproval, he]
    simp [ih fun x hx => h x (List.mem_cons_of_mem e hx)]

/-- The removal scan removes exactly the first matching entry, keeping every
entry before and after it in order. -/
theorem removeFirstApproval_append (taskId : String) (l₁ : List NotifEntry)
    (e : NotifEntry) (l₂ : List NotifEntry)
    (h₁ : ∀ x ∈ l₁, isApprovalNotifFor taskId x = false)
    (h₂ : isApprovalNotifFor taskId e = true) :
    removeFirstApproval taskId (l₁ ++ e :: l₂) = (l₁ ++ l₂, true) := by
  induction l₁ with
  | nil => simp [removeFirstApproval, h₂]
  | cons x xs ih =>
    have hx : isApprovalNotifFor taskId x = false := h₁ x (List.mem_cons_self x xs)
    rw [List.cons_append, removeFirstApproval, hx]
    simp [ih fun y hy => h₁ y (List.mem_cons_of_mem x hy)]

/-- Every run of the removal scan either leaves the list unchanged or removes
one single matching (hence well-formed) entry, the first match. -/
theorem removeFirstApproval_cases (taskId : String) (l : List NotifEntry) :
    (removeFirstApproval taskId l).1 = l ∨
      ∃ l₁ n l₂, l = l₁ ++ some n :: l₂ ∧
        (removeFirstApproval taskId l).1 = l₁ ++ l₂ ∧
        isApprovalNotifFor taskId (some n) = true ∧
        ∀ x ∈ l₁, isApprovalNotifFor taskId x = false := by
  induction l with
  | nil => left; rfl
  | cons e rest ih =>
    by_cases he : isApprovalNotifFor taskId e = true
    · right
      cases e with
      | none => simp [isApprovalNotifFor] at he
      | some n =>
        refine ⟨[], n, rest, rfl, ?_, he, by simp⟩
        rw [removeFirstApproval, he]
        simp
    · have he' : isApprovalNotifFor taskId e = false := by
        cases h : isApprovalNotifFor taskId e
        · rfl
        · exact absurd h he
      rcases ih with h | ⟨l₁, n, l₂, hsplit, hres, hn, hclean⟩
      · left
        rw [removeFirstApproval, he']
        simpa using h
      · right
        refine ⟨e :: l₁, n, l₂, by rw [hsplit, List.cons_append], ?_, hn, ?_⟩
        · rw [removeFirstApproval, he']
          simpa using hres
        · intro x hx
          rcases List.mem_cons.mp hx with rfl | hx
          · exact he'
          · exact hclean x hx

/-- The removal scan never removes a malformed entry: the count of malformed
entries is preserved. -/
theorem removeFirstApproval_countP_malformed (taskId : String) (l : List NotifEntry) :
    ((removeFirstApproval taskId l).1).countP isMalformedEntry =
      l.countP isMalformedEntry := by
  induction l with
  | nil => rfl
  | cons e rest ih =>
    by_cases he : isApprovalNotifFor taskId e = true
    · rw [removeFirstApproval, he]
      simp only [List.countP_cons,
        isMalformedEntry_eq_false_of_matches taskId e he]
      simp
    · have he' : isApprovalNotifFor taskId e = false := by
        cases h : isApprovalNotifFor taskId e
        · rfl
        · exact absurd h he
      rw [removeFirstApproval, he']
      simp [List.countP_cons, ih]

/-- When the first fetched manager holds no matching entry, the direction
lookup yields the `'up'` default. -/
theorem approvalDirection_of_forall_not (taskId : String) (l : List NotifEntry)
    (h : ∀ e ∈ l, isApprovalNotifFor taskId e = false) :
    approvalDirection taskId l = some Direction.up := by
  induction l with
  | nil => rfl
  | cons e rest ih =>
    simp only [approvalDirection, h e (List.mem_cons_self e rest)]
    simp [ih fun x hx => h x (List.mem_cons_of_mem e hx)]

/-- The approval mutation leaves the task's id untouched. -/
@[simp] theorem approveUpdate_id (now : Nat) (i : String) (t : Task) :
    (approveUpdate now i t).id = t.id := rfl

/-- The approval mutation leaves the task's text untouched. -/
@[simp] theorem approveUpdate_text (now : Nat) (i : String) (t : Task) :
    (approveUpdate now i t).text = t.text := rfl

/-- The needs-work mutation leaves the task's id untouched. -/
@[simp] theorem needsWorkUpdate_id (t : Task) : (needsWorkUpdate t).id = t.id := rfl

/-- The needs-work mutation leaves the task's text untouched. -/
@[simp] theorem needsWorkUpdate_text (t : Task) : (needsWorkUpdate t).text = t.text := rfl

/-- Claim C5 (amended).  The edit-authorization predicate grants exactly the
group's leader, every user listed in the managers mapping WITH A TRUE FLAG,
and the self-service case where the supplied target id equals the actor's id.
(The claim as frozen says "listed in the group's managers mapping"; the source
reads the flag's truthiness, so a user listed with a false flag is not
authorized — see the counterexample.)  `canNotEditTasks` is the source's
negated predicate, so `canEdit` is its `= false` side. -/
theorem claim_C5 (g : Group) (u : User) (t : Option String) :
    canNotEditTasks g u t = false ↔
      g.leader = u.id ∨ g.managers.lookup u.id = some true ∨
        ∃ s, t = some s ∧ u.id = s := by
  unfold canNotEditTasks
  cases t with
  | none =>
    cases hm : g.managers.lookup u.id with
    | none => simp [hm, Decidable.not_not]
    | some b => cases b <;> simp [hm, Decidable.not_not]
  | some s =>
    cases hm : g.managers.lookup u.id with
    | none =>
      simp [hm, Decidable.not_not, or_comm]
      tauto
    | some b =>
      cases b
      · simp [hm, Decidable.not_not, or_comm]
        tauto
      · simp [hm, Decidable.not_not, or_comm]

/-- Claim C5, counterexample.  User `U5` is listed in the managers mapping of
group `G5` (with flag `false`), is not its leader and supplies no target id;
the claim as frozen says the edit predicate is then true, but the source
denies the edit (`canNotEditTasks` is true). -/
theorem claim_C5_cex :
    (wFalseFlagGroup.managers.lookup wFalseFlagUser.id).isSome = true ∧
    wFalseFlagGroup.leader ≠ wFalseFlagUser.id ∧
    canNotEditTasks wFalseFlagGroup wFalseFlagUser none = true := by
  refine ⟨rfl, by decide, rfl⟩

/-- Claim C10.  The notification scans of approve and needs-work (embedded as
`isApprovalNotifFor` and `removeFirstApproval`, groups.js 329-338 and
418-427) are total over lists containing null/undefined or data-less entries:
a malformed entry never matches the scan predicate, the removal pass preserves
every malformed entry (their count is unchanged), and the only entry a pass
can remove is one carrying a `data.taskId` equal to the linked task's id with
type `GROUP_TASK_APPROVAL`.  Totality — the scans never throw — holds by
construction of the embedding: both are total functions. -/
theorem claim_C10 (taskId : String) (l : List NotifEntry) :
    (∀ e ∈ l, isMalformedEntry e = true → isApprovalNotifFor taskId e = false) ∧
    ((removeFirstApproval taskId l).1).countP isMalformedEntry =
      l.countP isMalformedEntry ∧
    ((removeFirstApproval taskId l).1 = l ∨
      ∃ l₁ n l₂, l = l₁ ++ some n :: l₂ ∧
        (removeFirstApproval taskId l).1 = l₁ ++ l₂ ∧
        ∃ d, n.data = some d ∧ d.taskId = some taskId ∧
          n.type = "GROUP_TASK_APPROVAL") := by
  refine ⟨?_, removeFirstApproval_countP_malformed taskId l, ?_⟩
  · intro e _ hm
    cases h : isApprovalNotifFor taskId e
    · rfl
    · rw [isMalformedEntry_eq_false_of_matches taskId e h] at hm
      exact absurd hm (by simp)
  · rcases removeFirstApproval_cases taskId l with h | ⟨l₁, n, l₂, h1, h2, h3, _⟩
    · exact Or.inl h
    · exact Or.inr ⟨l₁, n, l₂, h1, h2, (matches_iff taskId n).mp h3⟩

/-- Claim C8.  The group-task move is gated by leader-only authorization:
once the task and its group resolve and the completed-todo guard passes, a
call by any acting user other than the group's leader (in particular a user
who is only a manager) fails with the authorization error — and, the handler
throwing before any mutation, the group's tasksOrder is not changed — while
the leader's call succeeds and replaces the task's ordering bucket with the
moved order. -/
theorem claim_C8 (user : User) (taskId : String) (toPos : Int)
    (tasks : List Task) (groups : List Group) (t : Task) (g : Group)
    (h1 : tasks.find? (fun x => decide (x.id = taskId)) = some t)
    (h2 : ¬(t.type = TaskType.todo ∧ t.completed = true))
    (h3 : getGroup groups t.group.id = some g) :
    (g.leader ≠ user.id →
      groupMoveTask user taskId toPos tasks groups =
        .error (.notAuthorized .onlyGroupLeaderCanEditTasks)) ∧
    (g.leader = user.id →
      groupMoveTask user taskId toPos tasks groups =
        .ok ({g with tasksOrder := g.tasksOrder.set t.type (moveTask (g.tasksOrder.get t.type) t.id toPos)},
             moveTask (g.tasksOrder.get t.type) t.id toPos)) := by
  constructor <;> intro h <;> simp [groupMoveTask, h1, h2, h3, h]

/-- Claim C8, witness: the manager `M` of group `G` cannot move task `lt1`,
the leader `L` can, moving it to the bottom of the todos bucket. -/
theorem claim_C8_witness :
    groupMoveTask wManager "lt1" 0 [wTask] [wMoveGroup] =
      .error (.notAuthorized .onlyGroupLeaderCanEditTasks) ∧
    groupMoveTask wLeader "lt1" (-1) [wTask] [wMoveGroup] =
      .ok ({wMoveGroup with tasksOrder := {todos := ["z", "lt1"]}}, ["z", "lt1"]) := by
  constructor
  · exact (claim_C8 wManager "lt1" 0 [wTask] [wMoveGroup] wTask wMoveGroup
      rfl (by decide) rfl).1 (by decide)
  · exact ((claim_C8 wLeader "lt1" (-1) [wTask] [wMoveGroup] wTask wMoveGroup
      rfl (by decide) rfl).2 rfl).trans (by rfl)

/-- Claim C6 (amended).  An assign call whose resolved task has no `group.id`
does NOT proceed: the handler fails right there with the authorization error
"only group tasks can be assigned" (groups.js 188-190).  (The claim as frozen
says assignment is legal on such a task; the counterexample shows the source
rejects it.) -/
theorem claim_C6 (user : User) (taskId assignedUserId : String)
    (tasks : List Task) (groups : List Group) (users : List User) (t : Task)
    (h1 : tasks.find? (fun x => decide (x.id = taskId)) = some t)
    (h2 : t.group.id = none) :
    assignTask user taskId assignedUserId tasks groups users =
      .error (.notAuthorized .onlyGroupTasksCanBeAssigned) := by
  simp [assignTask, h1, h2]

/-- Claim C6, witness: the concrete groupless task `x1` is rejected. -/
theorem claim_C6_witness :
    assignTask wLeader "x1" "A" [wSoloTask] [wGroup] [wLeader, wAssignee] =
      .error (.notAuthorized .onlyGroupTasksCanBeAssigned) :=
  claim_C6 wLeader "x1" "A" [wSoloTask] [wGroup] [wLeader, wAssignee] wSoloTask rfl rfl

/-- Claim C6, counterexample.  The task `x1` has no group association, the
acting user is a group leader and the assignee id resolves; the claim as
frozen says the assignment is legal and does not fail on the missing group
association, but the call returns the authorization error on exactly that
ground. -/
theorem claim_C6_cex :
    wSoloTask.group.id = none ∧
    assignTask wLeader "x1" "A" [wSoloTask] [wGroup] [wLeader, wAssignee] =
      .error (.notAuthorized .onlyGroupTasksCanBeAssigned) :=
  ⟨rfl, rfl⟩

/-- Claim C7 (code bug).  When the assigned user id does not resolve but a
linked task for that id exists, approve does NOT fail with NotFound: the
handler never null-checks `assignedUser` and crashes with a JavaScript
TypeError at `assignedUser.addNotification` (groups.js 341) after passing all
typed-error checks.  The theorem evaluates the embedded handler at such an
input: the user lookup is absent, the task lookup succeeds, and the call
surfaces the crash, which is none of the NotFound errors. -/
theorem claim_C7 :
    findUserById [wLeader, wManager] "A" = none ∧
    findLinkedTask [wTask] "ct1" "A" = some wTask ∧
    approveTask 5 wLeader "ct1" "A" [wTask] [wGroup] [wLeader, wManager] =
      .error Err.jsTypeError ∧
    Err.jsTypeError ≠ Err.notFound ErrKey.taskNotFound ∧
    Err.jsTypeError ≠ Err.notFound ErrKey.groupNotFound :=
  ⟨rfl, rfl, rfl, by decide, by decide⟩

/-- Claim C2 (amended).  A needs-work call on a resolved linked task whose
approval state has `requested = false` always fails with an
InvalidStateTransition-class error, but which one depends on `approved`: the
once-only error when `approved = true` (that check comes first, groups.js
405), and the approval-was-not-requested error otherwise.  (The claim as
frozen says the approval-was-not-requested error is raised regardless of
`approved`; the counterexample shows otherwise.) -/
theorem claim_C2 (user : User) (taskId assignedUserId : String)
    (tasks : List Task) (groups : List Group) (users : List User) (t : Task) (g : Group)
    (h1 : findLinkedTask tasks taskId assignedUserId = some t)
    (h2 : t.group.approval.requested = false)
    (h3 : getGroup groups t.group.id = some g)
    (h4 : canNotEditTasks g user none = false) :
    taskNeedsWork user taskId assignedUserId tasks groups users =
      .error (.notAuthorized (if t.group.approval.approved then
        ErrKey.canOnlyApproveTaskOnce else ErrKey.taskApprovalWasNotRequested)) ∧
    isInvalidStateTransition (.notAuthorized (if t.group.approval.approved then
        ErrKey.canOnlyApproveTaskOnce else ErrKey.taskApprovalWasNotRequested)) = true := by
  cases ha : t.group.approval.approved with
  | true =>
    exact ⟨by simp [taskNeedsWork, h1, h2, h3, h4, ha],
      by simp [isInvalidStateTransition, ha]⟩
  | false =>
    exact ⟨by simp [taskNeedsWork, h1, h2, h3, h4, ha],
      by simp [isInvalidStateTransition, ha]⟩

/-- Claim C2, witness: the concrete already-approved, not-requested task. -/
theorem claim_C2_witness :
    taskNeedsWork wLeader "ct1" "A" [wTaskApprovedNotRequested] [wGroup] wUsers =
      .error (.notAuthorized (if wTaskApprovedNotRequested.group.approval.approved then
        ErrKey.canOnlyApproveTaskOnce else ErrKey.taskApprovalWasNotRequested)) ∧
    isInvalidStateTransition (.notAuthorized
      (if wTaskApprovedNotRequested.group.approval.approved then
        ErrKey.canOnlyApproveTaskOnce else ErrKey.taskApprovalWasNotRequested)) = true :=
  claim_C2 wLeader "ct1" "A" [wTaskApprovedNotRequested] [wGroup] wUsers
    wTaskApprovedNotRequested wGroup rfl rfl rfl rfl

/-- Claim C2, counterexample.  On a linked task with `requested = false` and
`approved = true`, needs-work fails with the once-only error, not with the
approval-was-not-requested error the claim as frozen demands. -/
theorem claim_C2_cex :
    wTaskApprovedNotRequested.group.approval.requested = false ∧
    taskNeedsWork wLeader "ct1" "A" [wTaskApprovedNotRequested] [wGroup] wUsers =
      .error (.notAuthorized .canOnlyApproveTaskOnce) ∧
    Err.notAuthorized ErrKey.canOnlyApproveTaskOnce ≠
      Err.notAuthorized ErrKey.taskApprovalWasNotRequested :=
  ⟨rfl, rfl, by decide⟩

/-- Claim C1.  Approving the same linked task twice: the first call — acting
user authorized as leader/manager, task not yet approved, all lookups
resolving — succeeds and sets `approved = true`, `dateApproved = now` and
`approvingUser` to the actor; any second approve call that resolves the
stored (now approved) task then fails with the once-only error.  The second
call throws before any mutation, so the stored task keeps exactly the
`approved`/`dateApproved`/`approvingUser` values written by the first call
(in this embedding an error result carries no updated entities). -/
theorem claim_C1
    (now now2 : Nat) (user user2 : User) (taskId auid : String)
    (tasks tasks2 : List Task) (groups groups2 : List Group)
    (users users2 : List User)
    (t : Task) (g g2 : Group) (au m0 : User) (ms : List User)
    (h1 : findLinkedTask tasks taskId auid = some t)
    (h2 : t.group.approval.approved = false)
    (h3 : getGroup groups t.group.id = some g)
    (h4 : canNotEditTasks g user none = false)
    (h5 : findUserById users auid = some au)
    (h6 : fetchUsers users (g.managers.map Prod.fst ++ [g.leader]) = m0 :: ms)
    (h7 : findLinkedTask tasks2 taskId auid = some (approveUpdate now user.id t))
    (h8 : getGroup groups2 (approveUpdate now user.id t).group.id = some g2)
    (h9 : canNotEditTasks g2 user2 none = false) :
    Except.map ApproveOk.task (approveTask now user taskId auid tasks groups users) =
      .ok (approveUpdate now user.id t) ∧
    (approveUpdate now user.id t).group.approval.approved = true ∧
    (approveUpdate now user.id t).group.approval.dateApproved = some now ∧
    (approveUpdate now user.id t).group.approval.approvingUser = some user.id ∧
    approveTask now2 user2 taskId auid tasks2 groups2 users2 =
      .error (.notAuthorized .canOnlyApproveTaskOnce) := by
  refine ⟨?_, rfl, rfl, rfl, ?_⟩
  · simp [approveTask, h1, h2, h3, h4, h5, h6, Except.map]
  · have h8' : getGroup groups2 t.group.id = some g2 := by
      simpa [approveUpdate] using h8
    simp [approveTask, h7, h8', h9, approveUpdate]

/-- Claim C1, witness: leader `L` approves `A`'s task at instant 5; a second
approve by manager `M` on the stored approved task fails with the once-only
error. -/
theorem claim_C1_witness :
    Except.map ApproveOk.task (approveTask 5 wLeader "ct1" "A" [wTask] [wGroup] wUsers) =
      .ok (approveUpdate 5 wLeader.id wTask) ∧
    (approveUpdate 5 wLeader.id wTask).group.approval.approved = true ∧
    (approveUpdate 5 wLeader.id wTask).group.approval.dateApproved = some 5 ∧
    (approveUpdate 5 wLeader.id wTask).group.approval.approvingUser = some wLeader.id ∧
    approveTask 7 wManager "ct1" "A" [wTaskApproved] [wGroup] wUsers =
      .error (.notAuthorized .canOnlyApproveTaskOnce) :=
  claim_C1 5 7 wLeader wManager "ct1" "A" [wTask] [wTaskApproved] [wGroup] [wGroup]
    wUsers wUsers wTask wGroup wGroup wAssignee wManager [wLeader]
    rfl rfl rfl rfl rfl rfl rfl rfl rfl

/-- Claim C3 (amended).  The direction forwarded into the assignee's
`SCORED_TASK` notification is recovered from the FIRST FETCHED USER of the
leader-plus-managers set only (`managers[0]`, groups.js 317-325): it is that
user's first matching pending-approval notification's direction, and defaults
to `'up'` when THAT user holds no matching notification — regardless of
notifications held by the other users of the set.  (The claim as frozen says
the first pending notification across the whole set is consulted; the
counterexample shows a matching notification on a later user is ignored.) -/
theorem claim_C3
    (now : Nat) (user : User) (taskId auid : String)
    (tasks : List Task) (groups : List Group) (users : List User)
    (t : Task) (g : Group) (au m0 : User) (ms : List User)
    (h1 : findLinkedTask tasks taskId auid = some t)
    (h2 : t.group.approval.approved = false)
    (h3 : getGroup groups t.group.id = some g)
    (h4 : canNotEditTasks g user none = false)
    (h5 : findUserById users auid = some au)
    (h6 : fetchUsers users (g.managers.map Prod.fst ++ [g.leader]) = m0 :: ms) :
    Except.map (fun r => r.assignedUser.notifications)
        (approveTask now user taskId auid tasks groups users) =
      .ok (au.notifications ++
        [some {type := "GROUP_TASK_APPROVED",
               data := some {message := some (res_t "yourTaskHasBeenApproved" [("taskText", t.text)] none),
                             groupId := some g.id}},
         some {type := "SCORED_TASK",
               data := some {message := some (res_t "yourTaskHasBeenApproved" [("taskText", t.text)] none),
                             scoreTask := some (approveUpdate now user.id t),
                             direction := approvalDirection t.id m0.notifications}}]) ∧
    ((∀ e ∈ m0.notifications, isApprovalNotifFor t.id e = false) →
      approvalDirection t.id m0.notifications = some Direction.up) := by
  constructor
  · simp [approveTask, h1, h2, h3, h4, h5, h6, Except.map, addNotification, res_t]
  · exact approvalDirection_of_forall_not t.id m0.notifications

/-- Claim C3, witness: in the standard scenario the first fetched user is
manager `M`, whose pending notification carries direction down, and that
direction is forwarded. -/
theorem claim_C3_witness :
    Except.map (fun r => r.assignedUser.notifications)
        (approveTask 5 wLeader "ct1" "A" [wTask] [wGroup] wUsers) =
      .ok (wAssignee.notifications ++
        [some {type := "GROUP_TASK_APPROVED",
               data := some {message := some (res_t "yourTaskHasBeenApproved" [("taskText", wTask.text)] none),
                             groupId := some wGroup.id}},
         some {type := "SCORED_TASK",
               data := some {message := some (res_t "yourTaskHasBeenApproved" [("taskText", wTask.text)] none),
                             scoreTask := some (approveUpdate 5 wLeader.id wTask),
                             direction := approvalDirection wTask.id wManager.notifications}}]) ∧
    ((∀ e ∈ wManager.notifications, isApprovalNotifFor wTask.id e = false) →
      approvalDirection wTask.id wManager.notifications = some Direction.up) :=
  claim_C3 5 wLeader "ct1" "A" [wTask] [wGroup] wUsers wTask wGroup wAssignee
    wManager [wLeader] rfl rfl rfl rfl rfl rfl

/-- Claim C3, counterexample.  In a group whose first fetched user (`M2`)
holds no pending-approval notification while the second user of the set, the
leader `L2`, holds one with direction down for the linked task, the forwarded
direction is up — the claim as frozen demands the down direction found on
`L2`, the only matching notification across the whole set. -/
theorem claim_C3_cex :
    scoredDirection (approveTask 9 cLeaderDown "ct3" "A2" [cTask] [cGroup] cUsers) =
      some Direction.up ∧
    fetchUsers cUsers (cGroup.managers.map Prod.fst ++ [cGroup.leader]) =
      [cManagerEmpty, cLeaderDown] ∧
    cManagerEmpty.notifications = [] ∧
    cLeaderDown.notifications = [some cPendingDown] ∧
    isApprovalNotifFor cTask.id (some cPendingDown) = true ∧
    cPendingDown.direction = some Direction.down ∧
    some Direction.up ≠ some Direction.down :=
  ⟨rfl, rfl, rfl, rfl, rfl, rfl, by decide⟩

/-- Claim C4.  After a successful approve, the returned leader-plus-managers
documents are exactly the fetched ones with the pending-approval cleanup
applied to each: a user of the set holding no matching notification is left
entirely unchanged, and a user holding one loses exactly the first matching
entry, every other notification being preserved in order (the list splits as
prefix-without-match ++ match :: suffix and becomes prefix ++ suffix). -/
theorem claim_C4
    (now : Nat) (user : User) (taskId auid : String)
    (tasks : List Task) (groups : List Group) (users : List User)
    (t : Task) (g : Group) (au m0 : User) (ms : List User)
    (h1 : findLinkedTask tasks taskId auid = some t)
    (h2 : t.group.approval.approved = false)
    (h3 : getGroup groups t.group.id = some g)
    (h4 : canNotEditTasks g user none = false)
    (h5 : findUserById users auid = some au)
    (h6 : fetchUsers users (g.managers.map Prod.fst ++ [g.leader]) = m0 :: ms) :
    Except.map ApproveOk.managers (approveTask now user taskId auid tasks groups users) =
      .ok ((m0 :: ms).map (fun m => (clearApprovalNotif t.id m).1)) ∧
    ∀ m ∈ m0 :: ms,
      ((∀ e ∈ m.notifications, isApprovalNotifFor t.id e = false) →
        (clearApprovalNotif t.id m).1 = m) ∧
      (∀ l₁ e l₂, m.notifications = l₁ ++ e :: l₂ →
        (∀ x ∈ l₁, isApprovalNotifFor t.id x = false) →
        isApprovalNotifFor t.id e = true →
        ((clearApprovalNotif t.id m).1).notifications = l₁ ++ l₂) := by
  constructor
  · simp [approveTask, h1, h2, h3, h4, h5, h6, Except.map]
  · intro m _
    constructor
    · intro hnone
      simp [clearApprovalNotif, removeFirstApproval_of_forall_not t.id m.notifications hnone]
    · intro l₁ e l₂ hsplit hclean hmatch
      simp [clearApprovalNotif, hsplit,
        removeFirstApproval_append t.id l₁ e l₂ hclean hmatch]

/-- Claim C4, witness: in the standard scenario manager `M` held the pending
notification and ends with it removed; leader `L` held none and is unchanged. -/
theorem claim_C4_witness :
    Except.map ApproveOk.managers (approveTask 5 wLeader "ct1" "A" [wTask] [wGroup] wUsers) =
      .ok ([wManager, wLeader].map (fun m => (clearApprovalNotif wTask.id m).1)) :=
  (claim_C4 5 wLeader "ct1" "A" [wTask] [wGroup] wUsers wTask wGroup wAssignee
    wManager [wLeader] rfl rfl rfl rfl rfl rfl).1

/-- Claim C9.  A successful needs-work call clears the task's `requested`
flag and `requestedDate`, and the assignee gains exactly one
`GROUP_TASK_NEEDS_WORK` notification, message localized to the ASSIGNEE's own
language preference (`some au.language` — not the acting manager's), carrying
the task's id and text, the group's id and name and the acting manager's id
and name (groups.js 429-451). -/
theorem claim_C9 (user : User) (taskId auid : String)
    (tasks : List Task) (groups : List Group) (users : List User)
    (t : Task) (g : Group) (au : User)
    (h1 : findLinkedTask tasks taskId auid = some t)
    (h2 : t.group.approval.approved = false)
    (h2r : t.group.approval.requested = true)
    (h3 : getGroup groups t.group.id = some g)
    (h4 : canNotEditTasks g user none = false)
    (h5 : findUserById users auid = some au) :
    Except.map NeedsWorkOk.task (taskNeedsWork user taskId auid tasks groups users) =
      .ok (needsWorkUpdate t) ∧
    (needsWorkUpdate t).group.approval.requested = false ∧
    (needsWorkUpdate t).group.approval.requestedDate = none ∧
    Except.map (fun r => r.assignedUser.notifications)
        (taskNeedsWork user taskId auid tasks groups users) =
      .ok (au.notifications ++
        [some {type := "GROUP_TASK_NEEDS_WORK",
               data := some {message := some (res_t "taskNeedsWork" [("taskText", t.text), ("managerName", user.name)] (some au.language)),
                             taskInfo := some (t.id, t.text),
                             groupInfo := some (g.id, g.name),
                             managerInfo := some (user.id, user.name)}}]) := by
  refine ⟨?_, rfl, rfl, ?_⟩
  · simp [taskNeedsWork, h1, h2, h2r, h3, h4, h5, Except.map]
  · simp [taskNeedsWork, h1, h2, h2r, h3, h4, h5, Except.map, addNotification, res_t]

/-- Claim C9, witness: leader `L` (language en) sends `A`'s task back; the
notification is localized to `A`'s language fr. -/
theorem claim_C9_witness :
    Except.map NeedsWorkOk.task (taskNeedsWork wLeader "ct1" "A" [wTask] [wGroup] wUsers) =
      .ok (needsWorkUpdate wTask) ∧
    (needsWorkUpdate wTask).group.approval.requested = false ∧
    (needsWorkUpdate wTask).group.approval.requestedDate = none ∧
    Except.map (fun r => r.assignedUser.notifications)
        (taskNeedsWork wLeader "ct1" "A" [wTask] [wGroup] wUsers) =
      .ok (wAssignee.notifications ++
        [some {type := "GROUP_TASK_NEEDS_WORK",
               data := some {message := some (res_t "taskNeedsWork" [("taskText", wTask.text), ("managerName", wLeader.name)] (some wAssignee.language)),
                             taskInfo := some (wTask.id, wTask.text),
                             groupInfo := some (wGroup.id, wGroup.name),
                             managerInfo := some (wLeader.id, wLeader.name)}}]) :=
  claim_C9 wLeader "ct1" "A" [wTask] [wGroup] wUsers wTask wGroup wAssignee
    rfl rfl rfl rfl rfl rfl

end HabiticaGroupTasks
